import Mathlib

/-!
Verification development for the Civitai metadata resolution pipeline
(src/vincenzo.py).  The Python source works on dynamically typed JSON
data; the embedding represents the embedded-state tree by the inductive
type `PyVal` and the model / version / file records that the field
normalizer consumes by Lean structures whose `Option` fields stand for
possibly missing dictionary keys.  Network-touching library calls
(requests.get, the regex search of the script tag, json.loads,
BeautifulSoup scraping, the HEAD probe of fetch_real_filename) are
abstracted as function parameters: each is a Python function whose body
is library code outside this repository, and the comments at each use
record which failure behaviour of the original the parameter type
encodes.
-/

namespace Vincenzo

/-- Stored id of a version record: Python values on which the source
applies int(...); a numeric value, a string (int succeeds exactly when
it spells an integer), or some other value on which int(...) raises. -/
inductive IdVal where
  | num (n : Int)
  | str (s : String)
  | other
deriving DecidableEq, Repr

/-- The settings sub-record used by build_usage_tips.  The source reads
settings.get("strength"), .get("minStrength"), .get("maxStrength");
numbers are modelled as Int. -/
structure SettingsR where
  strength : Option Int := none
  minStrength : Option Int := none
  maxStrength : Option Int := none
deriving DecidableEq, Repr

/-- One entry of a list-shaped hashes field: a dict with optional
"type" and "hash" keys (hash values are strings), or a non-dict entry
which the source skips with isinstance. -/
inductive HashItem where
  | mk (ty : Option String) (hv : Option String)
  | notDict
deriving DecidableEq, Repr

/-- The hashes field of a file record: the source distinguishes dict
(keyed mapping from hash-type name to value), list (sequence of
HashItem), and any other shape (which yields no hash). -/
inductive HashesVal where
  | dict (kvs : List (String × String))
  | list (items : List HashItem)
  | other
deriving DecidableEq, Repr

/-- The trainedWords field: either a list of strings or a plain
(string) value; the source branches on isinstance(list/tuple). -/
inductive TrainedVal where
  | list (ws : List String)
  | str (s : String)
deriving DecidableEq, Repr

/-- A file record inside a version record. -/
structure FileR where
  type : Option String := none
  name : Option String := none
  url : Option String := none
  hashes : Option HashesVal := none
deriving DecidableEq, Repr

/-- A version record.  Fields mirror the .get calls of the source. -/
structure VersionR where
  id : Option IdVal := none
  publishedAt : Option String := none
  baseModel : Option String := none
  baseModelType : Option String := none
  clipSkip : Option Int := none
  settings : Option SettingsR := none
  trainedWords : Option TrainedVal := none
  files : Option (List FileR) := none
deriving DecidableEq, Repr

/-- A model record, the payload stored at state.data of a matching
trpc query. -/
structure ModelR where
  id : Option Int := none
  type : Option String := none
  publishedAt : Option String := none
  modelVersions : Option (List VersionR) := none
deriving DecidableEq, Repr

/-- Values of the embedded-state tree.  Plain JSON nodes plus `model`
leaves: a `model` leaf embeds a Python dict that holds a model record
(the payloads that find_model_from_trpc returns and the later pipeline
stages consume).  isinstance(x, dict) holds of `model` leaves and `obj`
nodes; the source only ever treats the state.data payload as a record,
and the embedding types that payload as `model`. -/
inductive PyVal where
  | null
  | bool (b : Bool)
  | num (n : Int)
  | str (s : String)
  | arr (xs : List PyVal)
  | obj (kvs : List (String × PyVal))
  | model (m : ModelR)

/-! String operations of the Python runtime, implemented over the
character list of the string so that they evaluate by kernel
reduction.  Whitespace is the ASCII whitespace Python strips. -/

/-- Characters stripped by str.strip(). -/
def isPySpace (c : Char) : Bool :=
  c.toNat == 32 || c.toNat == 9 || c.toNat == 10 ||
  c.toNat == 13 || c.toNat == 11 || c.toNat == 12

/-- str.strip(). -/
def pyStrip (s : String) : String :=
  ⟨((s.data.dropWhile isPySpace).reverse.dropWhile isPySpace).reverse⟩

/-- str.upper() (ASCII). -/
def pyUpper (s : String) : String := ⟨s.data.map Char.toUpper⟩

/-- str.lower() (ASCII). -/
def pyLower (s : String) : String := ⟨s.data.map Char.toLower⟩

/-- sep.join(xs). -/
def strJoin (sep : String) (xs : List String) : String :=
  ⟨List.intercalate sep.data (xs.map String.data)⟩

/-- Lexicographic comparison of strings by code point, the ordering
Python uses on str: s ≤ t. -/
def strLeB : List Char → List Char → Bool
  | [], _ => true
  | _ :: _, [] => false
  | a :: as, b :: bs =>
    if a.toNat < b.toNat then true
    else if b.toNat < a.toNat then false
    else strLeB as bs

/-- str.replace(pat, rep): replace every non-overlapping occurrence,
scanning left to right. -/
def replaceList (pat rep : List Char) : List Char → List Char
  | [] => []
  | c :: rest =>
    if h : pat.isPrefixOf (c :: rest) ∧ pat ≠ [] then
      rep ++ replaceList pat rep ((c :: rest).drop pat.length)
    else
      c :: replaceList pat rep rest
termination_by l => l.length
decreasing_by
  · have hlen : pat.length ≤ (c :: rest).length :=
      (List.isPrefixOf_iff_prefix.mp h.1).sublist.length_le
    have hpos : 0 < pat.length := List.length_pos.mpr h.2
    simp only [List.length_drop]
    simp only [List.length_cons] at *
    omega
  · simp

/-- str.replace on strings. -/
def pyReplace (s pat rep : String) : String :=
  ⟨replaceList pat.data rep.data s.data⟩

/-- int(s) on a string: optional surrounding whitespace, an optional
sign, then one or more decimal digits; anything else raises (none). -/
def pyParseInt (s : String) : Option Int :=
  let cs := s.data.dropWhile isPySpace
  let cs := (cs.reverse.dropWhile isPySpace).reverse
  let p : Int × List Char :=
    match cs with
    | '-' :: t => (-1, t)
    | '+' :: t => (1, t)
    | t => (1, t)
  if p.2.isEmpty || !p.2.all Char.isDigit then none
  else some (p.1 * Int.ofNat (p.2.foldl (fun acc c => 10 * acc + (c.toNat - 48)) 0))

/-- Python truthiness of a value (used by the many `or` fallbacks). -/
def pyTruthy : PyVal → Bool
  | .null => false
  | .bool b => b
  | .num n => n != 0
  | .str s => s != ""
  | .arr xs => !xs.isEmpty
  | .obj kvs => !kvs.isEmpty
  | .model _ => true

/-- Python repr of a value (simplified: string escaping is not
modelled; a model leaf is shown as an opaque record, its rendering is
never reached by the data flow the claims exercise). -/
def pyRepr : PyVal → String
  | .null => "None"
  | .bool true => "True"
  | .bool false => "False"
  | .num n => toString n
  | .str s => "\x27" ++ s ++ "\x27"
  | .arr xs => "[" ++ strJoin ", " (xs.attach.map fun x => pyRepr x.1) ++ "]"
  | .obj kvs => "\x7b" ++ strJoin ", "
      (kvs.attach.map fun kv => "\x27" ++ kv.1.1 ++ "\x27: " ++ pyRepr kv.1.2) ++ "\x7d"
  | .model _ => "\x7b<model record>\x7d"
decreasing_by
  · have h := List.sizeOf_lt_of_mem x.2
    simp only [PyVal.arr.sizeOf_spec]
    omega
  · have h := List.sizeOf_lt_of_mem kv.2
    obtain ⟨⟨k, v⟩, hmem⟩ := kv
    simp only [PyVal.obj.sizeOf_spec, Prod.mk.sizeOf_spec] at *
    omega

/-- Python str of a value. -/
def pyStr : PyVal → String
  | .str s => s
  | v => pyRepr v

/-- The seven output fields, from TARGET_FIELDS of the source. -/
def TARGET_FIELDS : List String :=
  ["Type", "Published", "Base Model", "Usage Tips", "Trigger Words", "Hash", "File Name"]

/-- result = \x7bk: "" for k in TARGET_FIELDS\x7d -/
def emptyFields : List (String × String) := TARGET_FIELDS.map fun k => (k, "")

/-- Assignment result[k] = v on a dict modelled as an association
list: replaces the value at an existing key, appends otherwise (every
key the source assigns already exists in the template). -/
def setField : List (String × String) → String → String → List (String × String)
  | [], k, v => [(k, v)]
  | (k', v') :: t, k, v =>
    if k' = k then (k', v) :: t else (k', v') :: setField t k v

/-- Keys of the output mapping, in order. -/
def fieldKeys (l : List (String × String)) : List String := l.map Prod.fst

/-- Decimal digits to a natural number. -/
def digitsToNat (ds : List Char) : Nat :=
  ds.foldl (fun acc c => 10 * acc + (c.toNat - 48)) 0

/-- re.search for a literal marker followed by one or more digits:
returns the digits of the first position where marker + at least one
digit matches (the regex engine moves on past a marker that is not
followed by a digit). -/
def scanMarkerNat (marker : List Char) : List Char → Option Nat
  | [] => none
  | c :: rest =>
    let here := c :: rest
    if marker.isPrefixOf here then
      let ds := (here.drop marker.length).takeWhile Char.isDigit
      if ds.isEmpty then scanMarkerNat marker rest else some (digitsToNat ds)
    else scanMarkerNat marker rest

/-- extract_ids_from_url: the model id after a "/models/" path segment
and the version id of a modelVersionId query parameter (introduced by
? or &). -/
def extract_ids_from_url (url : String) : Option Int × Option Int :=
  let cs := url.toList
  let model_id := (scanMarkerNat "/models/".toList cs).map Int.ofNat
  let version_id :=
    match scanMarkerNat "?modelVersionId=".toList cs with
    | some n => some (Int.ofNat n)
    | none => (scanMarkerNat "&modelVersionId=".toList cs).map Int.ofNat
  (model_id, version_id)

/-- extract_next_data.  findScript abstracts the regex search for the
script element with id __NEXT_DATA__ (group(1) of the first match);
loads abstracts json.loads, none meaning it raises JSONDecodeError.
The first loads failure is caught and retried on the entity-decoded
text; a second failure is not caught, so the exception propagates
(.error). -/
def extract_next_data (findScript : String → Option String)
    (loads : String → Option PyVal) (html : String) : Except Unit (Option PyVal) :=
  match findScript html with
  | none => .ok none
  | some g =>
    let raw := pyStrip g
    match loads raw with
    | some j => .ok (some j)
    | none =>
      match loads (pyReplace raw "&quot;" "\x22") with
      | some j => .ok (some j)
      | none => .error ()

/-- Chained dict indexing next_data[k1][k2]... : any missing key or
non-dict intermediate raises, which the source catches, so the
traversal as a whole returns an Option. -/
def getPath : PyVal → List String → Option PyVal
  | v, [] => some v
  | .obj kvs, k :: ks =>
    match kvs.lookup k with
    | some v => getPath v ks
    | none => none
  | _, _ => none

/-- queryKey[0] matches [["model","getById"], ...]: a list of length
at least two whose first two elements are the strings "model" and
"getById". -/
def isModelGetById : PyVal → Bool
  | .arr (.str a :: .str b :: _) => a == "model" && b == "getById"
  | _ => false

/-- The for-loop of find_model_from_trpc.  cand is the running
fallback variable `candidate`.  A non-dict element makes q.get raise
(uncaught, .error); a dict element without a matching key pattern, or
whose state.data is missing or not a record, is skipped; a present but
non-dict state value makes .get("data") raise. -/
def trpcLoop : List PyVal → Option Int → Option ModelR → Except Unit (Option ModelR)
  | [], _, cand => .ok cand
  | q :: qs, mid, cand =>
    match q with
    | .obj kvs =>
      match kvs.lookup "queryKey" with
      | some (.arr (first :: _)) =>
        if isModelGetById first then
          match (kvs.lookup "state").getD (.obj []) with
          | .obj skvs =>
            match skvs.lookup "data" with
            | some (.model m) =>
              if (match mid with | none => true | some i => m.id == some i) then
                .ok (some m)
              else
                trpcLoop qs mid (some m)
            | _ => trpcLoop qs mid cand
          | .model _ => trpcLoop qs mid cand
          | _ => .error ()
        else trpcLoop qs mid cand
      | _ => trpcLoop qs mid cand
    | .model _ => trpcLoop qs mid cand
    | _ => .error ()

/-- find_model_from_trpc: walk to trpcState.json.queries (missing path
is caught and yields none), then scan the query descriptors.  Iterating
a non-list queries value raises unless the value is an empty container
(no iterations happen, the function returns the untouched fallback). -/
def find_model_from_trpc (next_data : PyVal) (model_id : Option Int) :
    Except Unit (Option ModelR) :=
  match getPath next_data ["props", "pageProps", "trpcState", "json", "queries"] with
  | none => .ok none
  | some (.arr qs) => trpcLoop qs model_id none
  | some (.obj []) => .ok none
  | some (.str "") => .ok none
  | some _ => .error ()

/-- int(x) on a stored id: succeeds on numbers and on strings that
spell an integer (surrounding whitespace allowed); raises otherwise.
int(None), modelled by the none case, raises as well. -/
def pyIntOfId : Option IdVal → Option Int
  | some (.num n) => some n
  | some (.str s) => pyParseInt s
  | _ => none

/-- _published_ts: str(v.get("publishedAt") or ""). -/
def pubTs (v : VersionR) : String := v.publishedAt.getD ""

/-- The id-matching for-loop of choose_model_version: return the first
version whose stored id converts to the target integer; an entry whose
int(...) raises is skipped by the except/continue. -/
def scanVersionId (vid : Int) : List VersionR → Option VersionR
  | [] => none
  | v :: vs =>
    match pyIntOfId v.id with
    | some n => if n = vid then some v else scanVersionId vid vs
    | none => scanVersionId vid vs

/-- choose_model_version.  sorted(versions, key=_published_ts,
reverse=True) is a stable sort by descending string key; insertionSort
with the reversed comparison is stable for the same preorder, so it
computes the same list. -/
def choose_model_version (model_data : ModelR) (version_id : Option Int) :
    Option VersionR :=
  match model_data.modelVersions with
  | none => none
  | some versions =>
    if versions.isEmpty then none
    else
      let matched :=
        match version_id with
        | some vid => scanVersionId vid versions
        | none => none
      match matched with
      | some v => some v
      | none =>
        (List.insertionSort
          (fun a b => strLeB (pubTs b).data (pubTs a).data = true) versions).head?

/-- build_usage_tips: the CLIP SKIP fragment and the STRENGTH fragment
(with optional min/max bounds), joined with " | ". -/
def build_usage_tips (version : VersionR) : String :=
  let settings := version.settings.getD {}
  let parts₁ : List String :=
    match version.clipSkip with
    | some cs => ["CLIP SKIP: " ++ toString cs]
    | none => []
  let parts₂ : List String :=
    match settings.strength with
    | none => []
    | some s =>
      if settings.minStrength.isSome || settings.maxStrength.isSome then
        let extra :=
          (match settings.minStrength with
           | some m => ["min " ++ toString m] | none => []) ++
          (match settings.maxStrength with
           | some m => ["max " ++ toString m] | none => [])
        ["STRENGTH: " ++ toString s ++ " (" ++ strJoin ", " extra ++ ")"]
      else
        ["STRENGTH: " ++ toString s]
  strJoin " | " (parts₁ ++ parts₂)

/-- raw_hashes = f.get("hashes") or []: a missing field and the falsy
empty dict both become the empty list. -/
def normHashes : Option HashesVal → HashesVal
  | none => .list []
  | some (.dict []) => .list []
  | some h => h

/-- preferred_order of the source. -/
def preferred_order : List String := ["AUTOV2", "AutoV2", "SHA256", "SHA1", "CRC32"]

/-- The inner for-loop condition: h is a dict, its uppercased type
equals the uppercased preference entry, and h.get("hash") is truthy. -/
def hashItemMatches (t : String) : HashItem → Bool
  | .mk ty hv => pyUpper (ty.getD "") == pyUpper t && (hv.getD "") != ""
  | .notDict => false

/-- The nested scan over preferred_order: for each preference entry
take the first matching item; if its stripped hash is non-empty the
scan stops there, otherwise it moves to the next entry.  (In the source
the stale chosen pair left by a stripped-empty match is overwritten or
ends as a falsy chosen_hash, so it never surfaces.) -/
def scanPref : List String → List HashItem → Option (String × String)
  | [], _ => none
  | t :: ts, items =>
    match items.find? (hashItemMatches t) with
    | some (.mk ty hv) =>
      let ht := pyUpper (ty.getD "")
      let ch := pyStrip (hv.getD "")
      if ch != "" then some (ht, ch) else scanPref ts items
    | _ => scanPref ts items

/-- The per-file body of the hash/file-name loop in extract_fields,
run on the first file whose type is "Model" or "model".  probe
abstracts fetch_real_filename (its whole body is wrapped in
try/except, so it is a total function into Option).  Returns
(hash_value, file_name). -/
def processModelFile (probe : String → Option String) (f : FileR) : String × String :=
  let file_name :=
    if (f.url.getD "") != "" then
      match probe (f.url.getD "") with
      | some real => if real != "" then real else pyStrip (f.name.getD "")
      | none => pyStrip (f.name.getD "")
    else ""
  let tv : String × String :=
    match normHashes f.hashes with
    | .dict kvs =>
      ("AUTOV2",
        pyStrip (if (kvs.lookup "AutoV2").getD "" != "" then (kvs.lookup "AutoV2").getD ""
         else (kvs.lookup "AUTOV2").getD ""))
    | .list items =>
      match scanPref preferred_order items with
      | some (t, h) => (t, h)
      | none => ("AUTOV2", "")
    | .other => ("AUTOV2", "")
  let hash_value := if tv.2 != "" then tv.1 ++ " | " ++ tv.2 else ""
  (hash_value, file_name)

/-- Selection of the model file: the loop breaks at the first file
whose type is exactly "Model" or exactly "model". -/
def isModelFile (f : FileR) : Bool :=
  f.type == some "Model" || f.type == some "model"

/-- trained = version_data.get("trainedWords") or []: a missing field
and a falsy empty string both become the empty list. -/
def normTrained : Option TrainedVal → TrainedVal
  | none => .list []
  | some (.str "") => .list []
  | some t => t

/-- `x or y or ""` on two optional strings under Python truthiness. -/
def orStr (a b : Option String) : String :=
  if a.getD "" != "" then a.getD ""
  else if b.getD "" != "" then b.getD ""
  else ""

/-- extract_fields: build the seven-key result from the model record
and the chosen version record, each field defaulting to the empty
string. -/
def extract_fields (probe : String → Option String)
    (model_data : Option ModelR) (version_data : Option VersionR) :
    List (String × String) :=
  let result := emptyFields
  match model_data with
  | none => result
  | some md =>
    let result := setField result "Type" (pyStrip (md.type.getD ""))
    match version_data with
    | none => result
    | some vd =>
      let result := setField result "Published" (pyStrip (orStr vd.publishedAt md.publishedAt))
      let result := setField result "Base Model" (pyStrip (orStr vd.baseModel vd.baseModelType))
      let result := setField result "Trigger Words"
        (match normTrained vd.trainedWords with
         | .list ws => strJoin ", " ((ws.map pyStrip).filter (· != ""))
         | .str s => pyStrip s)
      let result := setField result "Usage Tips" (build_usage_tips vd)
      let pair :=
        match (vd.files.getD []).find? isModelFile with
        | none => ("", "")
        | some f => processModelFile probe f
      let result := setField result "Hash" pair.1
      let result := setField result "File Name" pair.2
      result

/-- versions = data.get("modelVersions") or [] under truthiness. -/
def pyOrEmptyList (o : Option PyVal) : PyVal :=
  match o with
  | some v => if pyTruthy v then v else .arr []
  | none => .arr []

/-- first.get("url") or first.get("urlSmall") or first.get("urlThumbnail"):
the first truthy value among the three lookups (an all-falsy chain is
then rejected by `if not url`). -/
def pyFirstTruthy (xs : List (Option PyVal)) : Option PyVal :=
  xs.findSome? fun o => o.bind fun v => if pyTruthy v then some v else none

/-- fetch_preview_image_url_from_api.  apiResp abstracts the GET of the
public API endpoint together with resp.json(): none covers a transport
failure (caught, warns, returns None) and an undecodable body (caught,
returns None).  Shape errors past that point are uncaught in the
source: .get on a non-dict raises, indexing a truthy non-list raises
once its element is used.  A model leaf behaves as a record dict: the
keys the source asks for (modelVersions on the top level only through
its typed field, images, url) are absent, so every such path degrades
to None without raising. -/
def fetch_preview_image_url_from_api (apiResp : Int → Option PyVal)
    (model_id : Option Int) (version_id : Option Int) :
    Except Unit (Option String) :=
  match model_id with
  | none => .ok none
  | some mid =>
    match apiResp mid with
    | none => .ok none
    | some data =>
      match data with
      | .model _ => .ok none
      | .obj kvs =>
        match pyOrEmptyList (kvs.lookup "modelVersions") with
        | .arr [] => .ok none
        | .arr (v₀ :: vrest) =>
          let vs := v₀ :: vrest
          let chosen : Option PyVal :=
            match version_id with
            | none => none
            | some vid =>
              vs.find? fun v =>
                match v with
                | .obj vkvs =>
                  (match vkvs.lookup "id" with
                   | some (.num n) => n == vid
                   | some (.str s) => pyParseInt s == some vid
                   | _ => false)
                | .model m => m.id == some vid
                | _ => false
          match chosen.getD v₀ with
          | .model _ => .ok none
          | .obj ckvs =>
            match pyOrEmptyList (ckvs.lookup "images") with
            | .arr [] => .ok none
            | .arr (first :: _) =>
              match first with
              | .model _ => .ok none
              | .obj fkvs =>
                match pyFirstTruthy
                    [fkvs.lookup "url", fkvs.lookup "urlSmall", fkvs.lookup "urlThumbnail"] with
                | none => .ok none
                | some u => .ok (some (pyStrip (pyStr u)))
              | _ => .error ()
            | _ => .error ()
          | _ => .error ()
        | _ => .error ()
      | _ => .error ()

/-- The external collaborators of the pipeline, abstracted: the page
fetch may raise on transport failure (raise_for_status); the script
locator and json.loads as in extract_next_data; the BeautifulSoup
markup scrape (its only throwing call is wrapped in try/except, hence
total); the API response; the HEAD-probe of fetch_real_filename
(entirely wrapped in try/except, hence total). -/
structure Env where
  fetchHtml : String → Except Unit String
  findScript : String → Option String
  loads : String → Option PyVal
  scrape : String → Option String
  apiResp : Int → Option PyVal
  probe : String → Option String

/-- extract_details_from_url: the metadata resolution pipeline. -/
def extract_details_from_url (env : Env) (url : String) :
    Except Unit (List (String × String) × Option String) := do
  let ids := extract_ids_from_url url
  let html ← env.fetchHtml url
  let nd ← extract_next_data env.findScript env.loads html
  match nd with
  | none =>
    let preview := env.scrape html
    if (preview.getD "") != "" then
      return (emptyFields, preview)
    else
      let p ← fetch_preview_image_url_from_api env.apiResp ids.1 ids.2
      return (emptyFields, p)
  | some ndv =>
    let md ← find_model_from_trpc ndv ids.1
    let vd := match md with
      | some m => choose_model_version m ids.2
      | none => none
    let details := extract_fields env.probe md vd
    let p₁ ← fetch_preview_image_url_from_api env.apiResp ids.1 ids.2
    let preview := if (p₁.getD "") != "" then p₁ else env.scrape html
    return (details, preview)

/-! Support lemmas shared by several claims. -/

/-- The keys of the result of extract_fields: the chain of in-place
assignments keeps exactly the template keys. -/
theorem fieldKeys_extract_fields (probe : String → Option String)
    (md : Option ModelR) (vd : Option VersionR) :
    fieldKeys (extract_fields probe md vd) = TARGET_FIELDS := by
  cases md with
  | none => rfl
  | some m => cases vd with
    | none => rfl
    | some v => rfl

/-- The Hash entry of the result of extract_fields, as a function of
the first qualifying model file. -/
theorem lookup_extract_fields_hash (probe : String → Option String)
    (md : ModelR) (vd : VersionR) :
    (extract_fields probe (some md) (some vd)).lookup "Hash" =
      some (match (vd.files.getD []).find? isModelFile with
            | none => ("", "")
            | some f => processModelFile probe f).1 := rfl

/-- The File Name entry of the result of extract_fields. -/
theorem lookup_extract_fields_fileName (probe : String → Option String)
    (md : ModelR) (vd : VersionR) :
    (extract_fields probe (some md) (some vd)).lookup "File Name" =
      some (match (vd.files.getD []).find? isModelFile with
            | none => ("", "")
            | some f => processModelFile probe f).2 := rfl

/-- The Trigger Words entry of the result of extract_fields. -/
theorem lookup_extract_fields_trigger (probe : String → Option String)
    (md : ModelR) (vd : VersionR) :
    (extract_fields probe (some md) (some vd)).lookup "Trigger Words" =
      some (match normTrained vd.trainedWords with
            | .list ws => strJoin ", " ((ws.map pyStrip).filter (· != ""))
            | .str s => pyStrip s) := rfl

/-! Version selection: the head of the stable descending sort is the
first version carrying the maximal publishedAt key. -/

/-- The first element of the list whose key is maximal (earlier
elements win ties). -/
def firstMaxBy {α : Type} (key : α → String) : List α → Option α
  | [] => none
  | a :: as =>
    match firstMaxBy key as with
    | none => some a
    | some m => if strLeB (key m).data (key a).data then some a else some m

theorem head?_orderedInsert {α : Type} (r : α → α → Prop) [DecidableRel r]
    (a : α) (l : List α) :
    (List.orderedInsert r a l).head? =
      some (match l with | [] => a | b :: _ => if r a b then a else b) := by
  cases l with
  | nil => rfl
  | cons b t =>
    simp only [List.orderedInsert]
    split <;> rfl

theorem head?_insertionSort {α : Type} (key : α → String) (l : List α) :
    (List.insertionSort (fun a b => strLeB (key b).data (key a).data = true) l).head?
      = firstMaxBy key l := by
  induction l with
  | nil => rfl
  | cons a l ih =>
    show (List.orderedInsert _ a (List.insertionSort _ l)).head? = _
    cases hs : List.insertionSort
        (fun a b => strLeB (key b).data (key a).data = true) l with
    | nil =>
      have hp := List.perm_insertionSort
        (fun a b => strLeB (key b).data (key a).data = true) l
      rw [hs] at hp
      have hl : l = [] := hp.symm.eq_nil
      subst hl
      rfl
    | cons b t =>
      rw [head?_orderedInsert]
      rw [hs] at ih
      simp only [List.head?_cons] at ih
      show _ = firstMaxBy key (a :: l)
      simp only [firstMaxBy, ← ih]
      split <;> rfl

/-- The id-matching loop is a first-match search. -/
theorem scanVersionId_eq_find? (vid : Int) (vs : List VersionR) :
    scanVersionId vid vs = vs.find? (fun v => pyIntOfId v.id == some vid) := by
  induction vs with
  | nil => rfl
  | cons v vs ih =>
    rw [List.find?_cons]
    cases h : pyIntOfId v.id with
    | none => simpa [scanVersionId, h] using ih
    | some n =>
      by_cases hn : n = vid
      · simp [scanVersionId, h, hn]
      · have hb : (some n == some vid : Bool) = false := by simp [hn]
        rw [hb]
        simpa [scanVersionId, h, hn] using ih

/-- Claim-side description of the version selector: no versions gives
no value; a supplied target id selects the first exact integer match;
otherwise the first version with the lexically maximal publishedAt
string (the head of the stable descending sort). -/
def specChoose (md : ModelR) (vid : Option Int) : Option VersionR :=
  match md.modelVersions with
  | none => none
  | some vs =>
    if vs = [] then none
    else
      match vid with
      | some t =>
        match vs.find? (fun v => pyIntOfId v.id == some t) with
        | some v => some v
        | none => firstMaxBy pubTs vs
      | none => firstMaxBy pubTs vs

/-- The versions of the Version Selector example of the spec. -/
def exVersionsC6 : List VersionR :=
  [{ publishedAt := some "2023-01-01" }, { publishedAt := some "2024-05-05" },
   { publishedAt := some "2023-12-31" }]

/-- C6: choose_model_version returns no value on an empty or absent
versions list; with a target version id it returns the first version
whose stored id converts to that exact integer (skipping non-numeric
stored ids); otherwise, or when no id matches, it returns the first
element of the stable descending lexical sort by publishedAt, which is
the first version carrying the maximal key (empty string sorting
last); on publishedAt values 2023-01-01, 2024-05-05, 2023-12-31 it
selects 2024-05-05. -/
theorem C6_choose_model_version :
    (∀ (md : ModelR) (vid : Option Int),
      choose_model_version md vid = specChoose md vid)
    ∧ choose_model_version { modelVersions := some exVersionsC6 } none
        = some { publishedAt := some "2024-05-05" }
    ∧ choose_model_version { modelVersions := some [] } none = none
    ∧ choose_model_version { modelVersions := none } none = none := by
  refine ⟨?_, by decide, rfl, rfl⟩
  intro md vid
  unfold choose_model_version specChoose
  cases md.modelVersions with
  | none => rfl
  | some vs =>
    dsimp only
    by_cases hvs : vs = []
    · subst hvs; rfl
    · have hne : vs.isEmpty = false := by
        cases vs with
        | nil => exact absurd rfl hvs
        | cons a l => rfl
      rw [hne]
      simp only [if_neg hvs, Bool.false_eq_true, if_false]
      cases vid with
      | none =>
        exact head?_insertionSort pubTs vs
      | some t =>
        dsimp only
        rw [scanVersionId_eq_find?]
        cases hf : vs.find? (fun v => pyIntOfId v.id == some t) with
        | some v => rfl
        | none => exact head?_insertionSort pubTs vs

/-- C8: for every combination of present and absent model and version
data, the mapping extract_fields returns has exactly the seven keys
Type, Published, Base Model, Usage Tips, Trigger Words, Hash, File
Name, in the template order and with no other key; its values are
strings by construction, and they default to the empty string (with no
model data the result is exactly the all-empty template). -/
theorem C8_resolved_fields_keys (probe : String → Option String)
    (md : Option ModelR) (vd : Option VersionR) :
    fieldKeys (extract_fields probe md vd) = TARGET_FIELDS
    ∧ TARGET_FIELDS
        = ["Type", "Published", "Base Model", "Usage Tips", "Trigger Words",
           "Hash", "File Name"]
    ∧ extract_fields probe none vd = emptyFields
    ∧ emptyFields = TARGET_FIELDS.map (fun k => (k, "")) :=
  ⟨fieldKeys_extract_fields probe md vd, rfl, rfl, rfl⟩

/-! Query-record resolution: candidates and the loop invariant. -/

/-- Claim-side: the model payload of a candidate query descriptor, a
dict whose queryKey starts with the pair of strings model, getById and
whose state.data is a keyed record. -/
def candOf : PyVal → Option ModelR
  | .obj kvs =>
    match kvs.lookup "queryKey" with
    | some (.arr (first :: _)) =>
      if isModelGetById first then
        match (kvs.lookup "state").getD (.obj []) with
        | .obj skvs =>
          match skvs.lookup "data" with
          | some (.model m) => some m
          | _ => none
        | _ => none
      else none
    | _ => none
  | _ => none

/-- The first candidate of the scan. -/
def firstCand (qs : List PyVal) : Option ModelR := qs.findSome? candOf

/-- The first candidate whose record id equals the target. -/
def firstIdCand (i : Int) (qs : List PyVal) : Option ModelR :=
  qs.findSome? fun q =>
    (candOf q).bind fun m => if m.id == some i then some m else none

/-- The running fallback after scanning qs, starting from cand: the
last candidate seen, if any. -/
def lastCandFrom (cand : Option ModelR) (qs : List PyVal) : Option ModelR :=
  qs.foldl (fun acc q => match candOf q with | some m => some m | none => acc) cand

/-- The last candidate of the scan. -/
def lastCand (qs : List PyVal) : Option ModelR := lastCandFrom none qs

/-- A query descriptor the loop can process without raising: a dict
whose state value, when present, is itself a dict. -/
def qWF : PyVal → Bool
  | .obj kvs =>
    match kvs.lookup "queryKey" with
    | some (.arr (first :: _)) =>
      if isModelGetById first then
        match (kvs.lookup "state").getD (.obj []) with
        | .obj _ => true
        | .model _ => true
        | _ => false
      else true
    | _ => true
  | .model _ => true
  | _ => false

theorem exceptBind_ok {ε α β : Type} (a : α) (f : α → Except ε β) :
    (Except.ok a >>= f : Except ε β) = f a := rfl

theorem trpcLoop_cons (q : PyVal) (qs : List PyVal) (mid : Option Int)
    (cand : Option ModelR) (h : qWF q = true) :
    trpcLoop (q :: qs) mid cand =
      match candOf q with
      | some m =>
        if (match mid with | none => true | some i => m.id == some i)
        then .ok (some m) else trpcLoop qs mid (some m)
      | none => trpcLoop qs mid cand := by
  cases q with
  | null => exact absurd h (by simp [qWF])
  | bool b => exact absurd h (by simp [qWF])
  | num n => exact absurd h (by simp [qWF])
  | str s => exact absurd h (by simp [qWF])
  | arr xs => exact absurd h (by simp [qWF])
  | model m => rfl
  | obj kvs =>
    simp only [trpcLoop, candOf, qWF] at *
    cases hk : kvs.lookup "queryKey" with
    | none => rfl
    | some kv =>
      cases kv with
      | null => rfl
      | bool b => rfl
      | num n => rfl
      | str s => rfl
      | obj okvs => rfl
      | model m => rfl
      | arr l =>
        cases l with
        | nil => rfl
        | cons first rest =>
          rw [hk] at h
          by_cases hm : isModelGetById first = true
          · simp only [hm, if_true] at *
            cases hst : (kvs.lookup "state").getD (.obj []) with
            | obj skvs =>
              dsimp only
              cases hd : skvs.lookup "data" with
              | none => rfl
              | some dv => cases dv <;> rfl
            | model m => rfl
            | null => rw [hst] at h; exact absurd h (by simp)
            | bool b => rw [hst] at h; exact absurd h (by simp)
            | num n => rw [hst] at h; exact absurd h (by simp)
            | str s => rw [hst] at h; exact absurd h (by simp)
            | arr xs => rw [hst] at h; exact absurd h (by simp)
          · have hm' : isModelGetById first = false := by
              cases hb : isModelGetById first with
              | true => exact absurd hb hm
              | false => rfl
            simp only [hm', Bool.false_eq_true, if_false]

theorem trpcLoop_spec (mid : Option Int) :
    ∀ (qs : List PyVal) (cand : Option ModelR),
    (∀ q ∈ qs, qWF q = true) →
    trpcLoop qs mid cand = .ok (match mid with
      | none => match firstCand qs with | some m => some m | none => cand
      | some i =>
        match firstIdCand i qs with
        | some m => some m
        | none => lastCandFrom cand qs) := by
  intro qs
  induction qs with
  | nil =>
    intro cand h
    cases mid <;> rfl
  | cons q qs ih =>
    intro cand h
    rw [trpcLoop_cons q qs mid cand (h q (List.mem_cons_self q qs))]
    have hrest : ∀ x ∈ qs, qWF x = true :=
      fun x hx => h x (List.mem_cons_of_mem q hx)
    cases hc : candOf q with
    | none =>
      rw [ih cand hrest]
      cases mid with
      | none => simp [firstCand, List.findSome?_cons, hc]
      | some i => simp [firstIdCand, lastCandFrom, List.findSome?_cons, hc]
    | some m =>
      cases mid with
      | none =>
        simp only [if_true]
        simp [firstCand, List.findSome?_cons, hc]
      | some i =>
        cases hb : (m.id == some i) with
        | true =>
          simp only [hb, if_true]
          have heq : m.id = some i := by simpa using hb
          simp [firstIdCand, List.findSome?_cons, hc, heq]
        | false =>
          simp only [hb, Bool.false_eq_true, if_false]
          rw [ih (some m) hrest]
          have hne : ¬(m.id = some i) := by simpa using hb
          simp [firstIdCand, lastCandFrom, List.findSome?_cons, List.foldl_cons, hc, hne]

/-- C1 amended: for every embedded-state tree whose queries list is a
sequence of well-formed query descriptors, find_model_from_trpc with
no target model id returns the first candidate seen during the
in-order scan (not the last); with a target id it returns the first
candidate whose data.id equals it, and the last candidate seen when
none matches. -/
theorem C1_amended (nd : PyVal) (mid : Option Int) (qs : List PyVal)
    (hq : getPath nd ["props", "pageProps", "trpcState", "json", "queries"]
        = some (.arr qs))
    (hwf : ∀ q ∈ qs, qWF q = true) :
    find_model_from_trpc nd mid = .ok (match mid with
      | none => firstCand qs
      | some i =>
        match firstIdCand i qs with
        | some m => some m
        | none => lastCand qs) := by
  unfold find_model_from_trpc
  rw [hq]
  dsimp only
  rw [trpcLoop_spec mid qs none hwf]
  cases mid with
  | none => cases firstCand qs <;> rfl
  | some i => rfl

/-- Two distinct model records for the counterexample tree. -/
def mA : ModelR := { id := some 1 }

/-- See mA. -/
def mB : ModelR := { id := some 2 }

/-- A candidate query descriptor holding the given record. -/
def candQ (m : ModelR) : PyVal :=
  .obj [("queryKey", .arr [.arr [.str "model", .str "getById"]]),
        ("state", .obj [("data", .model m)])]

/-- An embedded-state tree with the given queries list. -/
def treeOf (qs : List PyVal) : PyVal :=
  .obj [("props", .obj [("pageProps", .obj [("trpcState",
    .obj [("json", .obj [("queries", .arr qs)])])])])]

/-- C1 counterexample: on a tree with two candidates and no target
model id, find_model_from_trpc returns the first candidate, while the
claim requires the last candidate seen during the scan. -/
theorem C1_counterexample :
    find_model_from_trpc (treeOf [candQ mA, candQ mB]) none = .ok (some mA)
    ∧ lastCand [candQ mA, candQ mB] = some mB
    ∧ mA ≠ mB :=
  ⟨rfl, rfl, by decide⟩

/-- C1 witness: the amended theorem applied to a concrete tree with a
target id that matches the second candidate. -/
theorem C1_amended_witness :
    find_model_from_trpc (treeOf [candQ mA, candQ mB]) (some 2) = .ok (some mB) :=
  (C1_amended (treeOf [candQ mA, candQ mB]) (some 2) [candQ mA, candQ mB]
    rfl (by decide)).trans rfl

/-! Embedded-state locator and pipeline error propagation. -/

/-- A script locator that always finds unparseable content. -/
def fsC2 : String → Option String := fun _ => some "not json"

/-- A json.loads that always fails. -/
def ldC2 : String → Option PyVal := fun _ => none

/-- C2 counterexample: when the located script content fails both
parse attempts, extract_next_data propagates the JSON error to the
caller instead of returning no value as the claim requires. -/
theorem C2_counterexample :
    extract_next_data fsC2 ldC2 "page" = .error ()
    ∧ extract_next_data fsC2 ldC2 "page" ≠ .ok none :=
  ⟨rfl, fun h => nomatch h⟩

/-- C2 amended: extract_next_data returns no value when no matching
element exists; it retries exactly once after replacing &quot; with a
quotation mark when the first parse fails; but when both parse
attempts fail the second JSON error propagates to the caller rather
than being turned into no value. -/
theorem C2_amended (findScript : String → Option String)
    (loads : String → Option PyVal) (html : String) :
    (findScript html = none → extract_next_data findScript loads html = .ok none)
    ∧ (∀ g j, findScript html = some g → loads (pyStrip g) = some j →
        extract_next_data findScript loads html = .ok (some j))
    ∧ (∀ g j, findScript html = some g → loads (pyStrip g) = none →
        loads (pyReplace (pyStrip g) "&quot;" "\x22") = some j →
        extract_next_data findScript loads html = .ok (some j))
    ∧ (∀ g, findScript html = some g → loads (pyStrip g) = none →
        loads (pyReplace (pyStrip g) "&quot;" "\x22") = none →
        extract_next_data findScript loads html = .error ()) := by
  refine ⟨?_, ?_, ?_, ?_⟩
  · intro h
    simp [extract_next_data, h]
  · intro g j hg hj
    simp [extract_next_data, hg, hj]
  · intro g j hg h₁ h₂
    simp [extract_next_data, hg, h₁, h₂]
  · intro g hg h₁ h₂
    simp [extract_next_data, hg, h₁, h₂]

/-- C2 witness: the amended theorem applied to the concrete
double-failure locator and parser. -/
theorem C2_amended_witness :
    extract_next_data fsC2 ldC2 "other page" = .error () :=
  (C2_amended fsC2 ldC2 "other page").2.2.2 "not json" rfl rfl rfl

/-- An environment whose page fetch hits a transport failure
(raise_for_status raises). -/
def envFail : Env :=
  { fetchHtml := fun _ => .error (), findScript := fun _ => none,
    loads := fun _ => none, scrape := fun _ => none,
    apiResp := fun _ => none, probe := fun _ => none }

/-- C3 counterexample: a transport failure during the page fetch
propagates out of extract_details_from_url (it is caught only by the
outer process_url wrapper), so the pipeline does not always return a
ResolvedFields mapping. -/
theorem C3_counterexample :
    extract_details_from_url envFail "https://civitai.com/models/1" = .error () := rfl

/-- C3 amended: transport failures of the API call and of the
file-name probe never escape extract_details_from_url (the api
response and the probe enter as arbitrary total fallible functions and
the result is still a complete seven-key mapping), but a page-fetch
transport failure, a doubly-unparseable state blob, or an uncaught
shape error of the resolver or the API preview stage propagates; when
the fetch, the locator and those stages succeed, the pipeline returns
a complete ResolvedFields mapping plus an optional preview URL. -/
theorem C3_amended (env : Env) (url html : String) (nd : Option PyVal)
    (h1 : env.fetchHtml url = .ok html)
    (h2 : extract_next_data env.findScript env.loads html = .ok nd)
    (h3 : ∀ t, nd = some t →
        ∃ r, find_model_from_trpc t (extract_ids_from_url url).1 = .ok r)
    (h4 : ∃ p, fetch_preview_image_url_from_api env.apiResp
        (extract_ids_from_url url).1 (extract_ids_from_url url).2 = .ok p) :
    ∃ flds pv, extract_details_from_url env url = .ok (flds, pv)
      ∧ fieldKeys flds = TARGET_FIELDS := by
  obtain ⟨p, hp⟩ := h4
  unfold extract_details_from_url
  rw [h1, exceptBind_ok, h2, exceptBind_ok]
  cases nd with
  | none =>
    dsimp only
    by_cases hs : ((env.scrape html).getD "" != "") = true
    · rw [if_pos hs]
      exact ⟨emptyFields, env.scrape html, rfl, rfl⟩
    · rw [if_neg hs, hp, exceptBind_ok]
      exact ⟨emptyFields, p, rfl, rfl⟩
  | some t =>
    obtain ⟨r, hr⟩ := h3 t rfl
    dsimp only
    rw [hr, exceptBind_ok, hp, exceptBind_ok]
    exact ⟨_, _, rfl, fieldKeys_extract_fields env.probe r _⟩

/-- An environment whose page fetch succeeds but whose page carries no
state blob; api and probe always fail. -/
def envOk : Env :=
  { fetchHtml := fun _ => .ok "page", findScript := fun _ => none,
    loads := fun _ => none, scrape := fun _ => none,
    apiResp := fun _ => none, probe := fun _ => none }

/-- C3 witness: the amended theorem applied to the concrete
environment whose page fetch succeeds. -/
theorem C3_amended_witness :
    ∃ flds pv, extract_details_from_url envOk "u" = .ok (flds, pv)
      ∧ fieldKeys flds = TARGET_FIELDS :=
  C3_amended envOk "u" "page" none rfl rfl (fun t h => nomatch h) ⟨none, rfl⟩

/-! Model-file selection and file-name resolution. -/

/-- A probe that always fails (HEAD request error or no
content-disposition header). -/
def probe₀ : String → Option String := fun _ => none

/-- Claim-side C4: the first file whose type case-insensitively equals
model. -/
def claimModelFile (fs : List FileR) : Option FileR :=
  fs.find? fun f => pyLower (f.type.getD "") == "model"

/-- A file whose type is MODEL in capitals. -/
def fC4 : FileR :=
  { type := some "MODEL", name := some "a.safetensors",
    hashes := some (.list [.mk (some "AUTOV2") (some "h")]) }

/-- C4 counterexample: a file of type MODEL is not treated as the
model file by the source (the comparison is the exact strings Model
and model), although the claim's case-insensitive rule selects it; its
hash and name are therefore never resolved. -/
theorem C4_counterexample :
    ([fC4].find? isModelFile = none)
    ∧ claimModelFile [fC4] = some fC4
    ∧ (extract_fields probe₀ (some {}) (some { files := some [fC4] })).lookup "Hash"
        = some ""
    ∧ (extract_fields probe₀ (some {}) (some { files := some [fC4] })).lookup "File Name"
        = some "" :=
  ⟨rfl, rfl, rfl, rfl⟩

/-- C4 amended: the files list is searched in original order and
exactly the first file whose type equals the exact string Model or the
exact string model is treated as the model file (Hash and File Name
are resolved from it); later files, qualifying or not, are never
inspected (the result does not depend on them). -/
theorem C4_amended (probe : String → Option String) (md : ModelR) (vd : VersionR)
    (pre post : List FileR) (f : FileR)
    (hpre : ∀ g ∈ pre, isModelFile g = false)
    (hf : isModelFile f = true)
    (hfiles : vd.files = some (pre ++ f :: post)) :
    (extract_fields probe (some md) (some vd)).lookup "Hash"
        = some (processModelFile probe f).1
    ∧ (extract_fields probe (some md) (some vd)).lookup "File Name"
        = some (processModelFile probe f).2 := by
  have hfind : (vd.files.getD []).find? isModelFile = some f := by
    rw [hfiles]
    show (pre ++ f :: post).find? isModelFile = some f
    rw [List.find?_append]
    have h₁ : pre.find? isModelFile = none :=
      List.find?_eq_none.mpr (by intro x hx; simp [hpre x hx])
    rw [h₁, List.find?_cons, hf]
    rfl
  rw [lookup_extract_fields_hash, lookup_extract_fields_fileName, hfind]
  exact ⟨rfl, rfl⟩

/-- Non-qualifying file before the model file. -/
def preC4 : List FileR := [{ type := some "Other" }]

/-- The first qualifying model file of the witness list. -/
def fC4w : FileR := { type := some "model", name := some "w.st" }

/-- A later qualifying file that is never inspected. -/
def postC4 : List FileR := [{ type := some "Model", name := some "ignored.st" }]

/-- C4 witness: the amended theorem applied to a concrete list with a
non-qualifying file in front and a second qualifying file behind. -/
theorem C4_amended_witness :
    (extract_fields probe₀ (some {})
        (some { files := some (preC4 ++ fC4w :: postC4) })).lookup "Hash"
      = some (processModelFile probe₀ fC4w).1
    ∧ (extract_fields probe₀ (some {})
        (some { files := some (preC4 ++ fC4w :: postC4) })).lookup "File Name"
      = some (processModelFile probe₀ fC4w).2 :=
  C4_amended probe₀ {} { files := some (preC4 ++ fC4w :: postC4) }
    preC4 postC4 fC4w (by decide) rfl rfl

/-- Claim-side C5: probe result when the probe succeeds, stored name
when the probe fails or the file has no URL. -/
def claimFileName (probe : String → Option String) (f : FileR) : String :=
  match f.url with
  | some u =>
    (match probe u with
     | some real => real
     | none => f.name.getD "")
  | none => f.name.getD ""

/-- A model file carrying a stored name but no URL. -/
def fC5 : FileR := { type := some "Model", name := some "a.safetensors" }

/-- C5 counterexample: for a model file without a URL the source
leaves File Name empty, while the claim requires the stored name as
fallback. -/
theorem C5_counterexample :
    (extract_fields probe₀ (some {}) (some { files := some [fC5] })).lookup "File Name"
        = some ""
    ∧ claimFileName probe₀ fC5 = "a.safetensors"
    ∧ ("" : String) ≠ "a.safetensors" :=
  ⟨rfl, rfl, by decide⟩

/-- Amended C5 file-name rule: probe result when a URL is present and
the probe returns a non-empty name; stripped stored name when a URL is
present but the probe fails or returns an empty name; empty string
when the file has no (truthy) URL. -/
def amendedFileName (probe : String → Option String) (f : FileR) : String :=
  match f.url with
  | none => ""
  | some u =>
    if u = "" then ""
    else
      match probe u with
      | some real => if real = "" then pyStrip (f.name.getD "") else real
      | none => pyStrip (f.name.getD "")

theorem fileName_eq_amended (probe : String → Option String) (f : FileR) :
    (processModelFile probe f).2 = amendedFileName probe f := by
  unfold processModelFile amendedFileName
  cases hu : f.url with
  | none => simp
  | some u =>
    by_cases h : u = ""
    · subst h; simp
    · cases hp : probe u with
      | none => simp [h, hp]
      | some real =>
        by_cases hr : real = ""
        · simp [h, hp, hr]
        · simp [h, hp, hr]

/-- C5 amended: for every first qualifying model file, File Name is
the probe result when the file has a URL and the probe yields a
non-empty name; it falls back to the stripped stored name when the
probe fails despite a URL; and it stays empty when the file has no
URL. -/
theorem C5_amended (probe : String → Option String) (md : ModelR) (vd : VersionR)
    (fs : List FileR) (f : FileR)
    (hfiles : vd.files = some fs)
    (hfind : fs.find? isModelFile = some f) :
    (extract_fields probe (some md) (some vd)).lookup "File Name"
      = some (amendedFileName probe f) := by
  rw [lookup_extract_fields_fileName, hfiles]
  show some ((match fs.find? isModelFile with
              | none => ("", "")
              | some f => processModelFile probe f)).2 = _
  rw [hfind]
  exact congrArg some (fileName_eq_amended probe f)

/-- A model file whose probe fails, with a padded stored name. -/
def fC5w : FileR :=
  { type := some "Model", name := some " b.st ", url := some "http://u" }

/-- C5 witness: the amended theorem applied to a file with a URL and a
failing probe; the stored name is stripped. -/
theorem C5_amended_witness :
    (extract_fields probe₀ (some {}) (some { files := some [fC5w] })).lookup "File Name"
      = some "b.st" :=
  (C5_amended probe₀ {} { files := some [fC5w] } [fC5w] fC5w rfl rfl).trans rfl

/-! Hash resolution for list-shaped hashes. -/

/-- The effective preference order of the claim (the AutoV2 entry of
the source order is a duplicate under case-insensitive matching). -/
def claimHashOrder : List String := ["AUTOV2", "SHA256", "SHA1", "CRC32"]

/-- Claim-side C7: the first record, scanning preference types in
order and records in list order, whose type matches case-insensitively
and whose hash is non-empty, rendered as TYPE | value. -/
def claimHashScan (items : List HashItem) : String :=
  match claimHashOrder.findSome? (fun t =>
    items.findSome? (fun h =>
      match h with
      | .mk ty hv =>
        if pyUpper (ty.getD "") == t && pyStrip (hv.getD "") != ""
        then some (t ++ " | " ++ pyStrip (hv.getD "")) else none
      | .notDict => none)) with
  | some s => s
  | none => ""

/-- A SHA256 record whose hash strips to empty, followed by a usable
SHA256 record. -/
def itemsC7 : List HashItem :=
  [.mk (some "SHA256") (some " "), .mk (some "SHA256") (some "x")]

/-- The model file of the C7 counterexample. -/
def fC7 : FileR := { type := some "Model", hashes := some (.list itemsC7) }

/-- C7 counterexample: the source chooses the first truthy-hash record
of a type and, when its stripped value is empty, abandons the type
without revisiting later records, leaving Hash empty, while the claim
resolves the later non-empty SHA256 record. -/
theorem C7_counterexample :
    (extract_fields probe₀ (some {}) (some { files := some [fC7] })).lookup "Hash"
        = some ""
    ∧ claimHashScan itemsC7 = "SHA256 | x"
    ∧ ("" : String) ≠ "SHA256 | x" :=
  ⟨rfl, rfl, by decide⟩

theorem scanPref_cons_none (t : String) (ts : List String) (items : List HashItem)
    (h : items.find? (hashItemMatches t) = none) :
    scanPref (t :: ts) items = scanPref ts items := by
  simp only [scanPref, h]

theorem scanPref_cons_notDict (t : String) (ts : List String) (items : List HashItem)
    (h : items.find? (hashItemMatches t) = some .notDict) :
    scanPref (t :: ts) items = scanPref ts items := by
  simp only [scanPref, h]

theorem scanPref_cons_mk (t : String) (ts : List String) (items : List HashItem)
    (ty hv : Option String) (h : items.find? (hashItemMatches t) = some (.mk ty hv)) :
    scanPref (t :: ts) items =
      if pyStrip (hv.getD "") != ""
      then some (pyUpper (ty.getD ""), pyStrip (hv.getD ""))
      else scanPref ts items := by
  simp only [scanPref, h]

/-- The source scans the order AUTOV2, AutoV2, SHA256, SHA1, CRC32
with case-insensitive matching; the AutoV2 pass repeats the AUTOV2
pass and never changes the result. -/
theorem scanPref_autov2_dup (items : List HashItem) :
    scanPref preferred_order items = scanPref claimHashOrder items := by
  have hmatch : hashItemMatches "AutoV2" = hashItemMatches "AUTOV2" :=
    funext fun h => by cases h <;> rfl
  show scanPref ("AUTOV2" :: "AutoV2" :: ["SHA256", "SHA1", "CRC32"]) items
      = scanPref ("AUTOV2" :: ["SHA256", "SHA1", "CRC32"]) items
  cases hf : items.find? (hashItemMatches "AUTOV2") with
  | none =>
    have hf' : items.find? (hashItemMatches "AutoV2") = none := by
      rw [hmatch]; exact hf
    rw [scanPref_cons_none _ _ _ hf, scanPref_cons_none _ _ _ hf',
        scanPref_cons_none _ _ _ hf]
  | some h =>
    cases h with
    | notDict =>
      have hf' : items.find? (hashItemMatches "AutoV2") = some .notDict := by
        rw [hmatch]; exact hf
      rw [scanPref_cons_notDict _ _ _ hf, scanPref_cons_notDict _ _ _ hf',
          scanPref_cons_notDict _ _ _ hf]
    | mk ty hv =>
      have hf' : items.find? (hashItemMatches "AutoV2") = some (.mk ty hv) := by
        rw [hmatch]; exact hf
      rw [scanPref_cons_mk _ _ _ _ _ hf, scanPref_cons_mk _ _ _ _ _ hf]
      by_cases hch : (pyStrip (hv.getD "") != "") = true
      · rw [if_pos hch, if_pos hch]
      · rw [if_neg hch, if_neg hch, scanPref_cons_mk _ _ _ _ _ hf', if_neg hch]

/-- Amended per-type scan over an explicit preference list: for each
type take the first record with a truthy hash; keep it only when its
stripped value is non-empty, otherwise move to the next type. -/
def amendedScanG (ts : List String) (items : List HashItem) : Option (String × String) :=
  ts.findSome? fun t =>
    match items.find? (hashItemMatches t) with
    | some (.mk ty hv) =>
      if pyStrip (hv.getD "") != ""
      then some (pyUpper (ty.getD ""), pyStrip (hv.getD ""))
      else none
    | _ => none

theorem scanPref_eq_amendedG (ts : List String) (items : List HashItem) :
    scanPref ts items = amendedScanG ts items := by
  induction ts with
  | nil => rfl
  | cons t ts ih =>
    unfold amendedScanG
    rw [List.findSome?_cons]
    cases hf : items.find? (hashItemMatches t) with
    | none =>
      rw [scanPref_cons_none _ _ _ hf]
      exact ih
    | some h =>
      cases h with
      | notDict =>
        rw [scanPref_cons_notDict _ _ _ hf]
        exact ih
      | mk ty hv =>
        rw [scanPref_cons_mk _ _ _ _ _ hf]
        dsimp only
        by_cases hch : (pyStrip (hv.getD "") != "") = true
        · simp only [if_pos hch]
        · simp only [if_neg hch]
          exact ih

/-- The rendered Hash value of the amended scan. -/
def amendedHashScan (items : List HashItem) : String :=
  match amendedScanG claimHashOrder items with
  | some (t, h) => t ++ " | " ++ h
  | none => ""

theorem amendedScanG_snd_ne (ts : List String) (items : List HashItem)
    (t h : String) (hs : amendedScanG ts items = some (t, h)) : (h != "") = true := by
  induction ts with
  | nil => exact absurd hs (by simp [amendedScanG])
  | cons t' ts ih =>
    unfold amendedScanG at hs
    rw [List.findSome?_cons] at hs
    cases hf : items.find? (hashItemMatches t') with
    | none =>
      rw [hf] at hs
      exact ih hs
    | some x =>
      cases x with
      | notDict =>
        rw [hf] at hs
        exact ih hs
      | mk ty hv =>
        rw [hf] at hs
        by_cases hch : (pyStrip (hv.getD "") != "") = true
        · simp only [if_pos hch] at hs
          simp only [Option.some.injEq, Prod.mk.injEq] at hs
          rw [← hs.2]
          exact hch
        · simp only [if_neg hch] at hs
          exact ih hs

/-- The per-file hash value for list-shaped hashes equals the amended
scan. -/
theorem processHash_eq_amended (probe : String → Option String) (f : FileR)
    (items : List HashItem) (hh : f.hashes = some (.list items)) :
    (processModelFile probe f).1 = amendedHashScan items := by
  unfold processModelFile
  rw [hh]
  show (if ((match scanPref preferred_order items with
             | some (t, h) => (t, h)
             | none => ("AUTOV2", "")).2 != "") = true
        then (match scanPref preferred_order items with
              | some (t, h) => (t, h)
              | none => ("AUTOV2", "")).1 ++ " | " ++
             (match scanPref preferred_order items with
              | some (t, h) => (t, h)
              | none => ("AUTOV2", "")).2
        else "") = amendedHashScan items
  rw [scanPref_autov2_dup, scanPref_eq_amendedG]
  unfold amendedHashScan
  cases ha : amendedScanG claimHashOrder items with
  | none => rfl
  | some p =>
    obtain ⟨t, h⟩ := p
    have hne := amendedScanG_snd_ne claimHashOrder items t h ha
    dsimp only
    rw [if_pos hne]

/-- C7 amended: for a first qualifying model file whose hashes field
is a sequence of typed hash records, Hash is produced by scanning the
preference order AUTOV2, SHA256, SHA1, CRC32 with case-insensitive
type matching, selecting for each type the first record with a truthy
hash value; when its stripped value is non-empty Hash is TYPE |
value (record type uppercased, value stripped) and the scan stops;
when it strips to empty the scan moves to the next type without
revisiting later records of the same type, and Hash stays empty when
no type yields a value. -/
theorem C7_amended (probe : String → Option String) (md : ModelR) (vd : VersionR)
    (fs : List FileR) (f : FileR) (items : List HashItem)
    (hfiles : vd.files = some fs)
    (hfind : fs.find? isModelFile = some f)
    (hh : f.hashes = some (.list items)) :
    (extract_fields probe (some md) (some vd)).lookup "Hash"
      = some (amendedHashScan items) := by
  rw [lookup_extract_fields_hash, hfiles]
  show some ((match fs.find? isModelFile with
              | none => ("", "")
              | some f => processModelFile probe f)).1 = _
  rw [hfind]
  exact congrArg some (processHash_eq_amended probe f items hh)

/-- The hashes of the spec example: SHA256 before AutoV2 in list
order. -/
def itemsC7w : List HashItem :=
  [.mk (some "SHA256") (some "x"), .mk (some "AutoV2") (some "y")]

/-- The model file of the C7 witness. -/
def fC7w : FileR := { type := some "Model", hashes := some (.list itemsC7w) }

/-- C7 witness: the amended theorem applied to the spec example, where
preference order beats list order. -/
theorem C7_amended_witness :
    (extract_fields probe₀ (some {}) (some { files := some [fC7w] })).lookup "Hash"
      = some "AUTOV2 | y" :=
  (C7_amended probe₀ {} { files := some [fC7w] } [fC7w] fC7w itemsC7w
    rfl rfl rfl).trans rfl

/-! Trigger words and mapping-shaped hashes. -/

/-- Claim-side C9: lists are trimmed, filtered and joined; non-list
values are stringified directly, without trimming. -/
def claimTrigger : TrainedVal → String
  | .list ws => strJoin ", " ((ws.map pyStrip).filter (· != ""))
  | .str s => s

/-- A version whose trainedWords is a padded plain string. -/
def vdC9 : VersionR := { trainedWords := some (.str " a ") }

/-- C9 counterexample: a non-list trainedWords value is stripped by
the source, while the claim requires it stringified directly. -/
theorem C9_counterexample :
    (extract_fields probe₀ (some {}) (some vdC9)).lookup "Trigger Words" = some "a"
    ∧ claimTrigger (.str " a ") = " a "
    ∧ ("a" : String) ≠ " a " :=
  ⟨rfl, rfl, by decide⟩

/-- C9 amended: for a list-valued trainedWords, Trigger Words joins
the entries with a comma and a space after trimming each and dropping
the entries that trim to empty; for a non-list value it is that value
stringified and trimmed (an empty string, being falsy, goes through
the list branch with the same empty result). -/
theorem C9_amended (probe : String → Option String) (md : ModelR) (vd : VersionR) :
    (extract_fields probe (some md) (some vd)).lookup "Trigger Words"
      = some (match vd.trainedWords with
              | some (.list ws) => strJoin ", " ((ws.map pyStrip).filter (· != ""))
              | some (.str s) => pyStrip s
              | none => "") := by
  rw [lookup_extract_fields_trigger]
  congr 1
  cases htw : vd.trainedWords with
  | none => rfl
  | some t =>
    cases t with
    | list ws => rfl
    | str s =>
      rcases eq_or_ne s "" with h | h
      · subst h; rfl
      · have hn : normTrained (some (.str s)) = .str s := by
          unfold normTrained
          split
          · rename_i heq
            exact absurd heq (by simp)
          · rename_i heq
            injection heq with h₁
            injection h₁ with h₂
            exact absurd h₂ h
          · rename_i t ht heq
            injection heq with h₁
            exact h₁.symm
        rw [hn]

/-- The claimed list example: entries are trimmed and empties
dropped. -/
theorem C9_list_example :
    (extract_fields probe₀ (some {})
      (some { trainedWords := some (.list ["", " a ", "b"]) })).lookup "Trigger Words"
      = some "a, b" := rfl

/-- The dict-shaped hash resolution as a function of exactly the
AutoV2 and AUTOV2 entries of the mapping. -/
def dictHashRender (a b : Option String) : String :=
  let v := pyStrip (if a.getD "" != "" then a.getD "" else b.getD "")
  if v != "" then "AUTOV2 | " ++ v else ""

/-- C10: for a first qualifying model file whose hashes field is a
keyed mapping, Hash is a function of only the AutoV2 and AUTOV2
entries of the mapping (no preference-order scan is applied), and when
neither key holds a non-empty value the Hash field is the empty
string, whatever other hash types the mapping contains. -/
theorem C10_dict_hash (probe : String → Option String) (md : ModelR) (vd : VersionR)
    (fs : List FileR) (f : FileR) (kvs : List (String × String))
    (hfiles : vd.files = some fs)
    (hfind : fs.find? isModelFile = some f)
    (hh : f.hashes = some (.dict kvs)) :
    ((extract_fields probe (some md) (some vd)).lookup "Hash"
        = some (dictHashRender (kvs.lookup "AutoV2") (kvs.lookup "AUTOV2")))
    ∧ ((kvs.lookup "AutoV2").getD "" = "" → (kvs.lookup "AUTOV2").getD "" = "" →
        (extract_fields probe (some md) (some vd)).lookup "Hash" = some "") := by
  have hmain : (extract_fields probe (some md) (some vd)).lookup "Hash"
      = some (dictHashRender (kvs.lookup "AutoV2") (kvs.lookup "AUTOV2")) := by
    rw [lookup_extract_fields_hash, hfiles]
    show some ((match fs.find? isModelFile with
                | none => ("", "")
                | some f => processModelFile probe f)).1 = _
    rw [hfind]
    refine congrArg some ?_
    unfold processModelFile dictHashRender
    dsimp only
    rw [hh]
    cases kvs with
    | nil => rfl
    | cons kv rest => rfl
  refine ⟨hmain, fun h₁ h₂ => ?_⟩
  rw [hmain]
  simp only [dictHashRender, h₁, h₂]
  rfl

/-- A model file whose mapping-shaped hashes only contain SHA256. -/
def fC10 : FileR :=
  { type := some "Model", hashes := some (.dict [("SHA256", "x")]) }

/-- C10 witness: the theorem applied to a mapping with a SHA256 entry
and no AutoV2 entry; Hash stays empty. -/
theorem C10_witness :
    (extract_fields probe₀ (some {}) (some { files := some [fC10] })).lookup "Hash"
      = some "" :=
  (C10_dict_hash probe₀ {} { files := some [fC10] } [fC10] fC10 [("SHA256", "x")]
    rfl rfl rfl).2 rfl rfl

end Vincenzo
